import Mathlib

/-!
Verification of the message-resolution and forwarding logic of the
`forwardEmail` Azure-function repository.

The authoritative source is `src/forwardEmail/index.js` (its first revision):
`searchMessageByMetadata`, `validateMessageId`, `convertExchangeId` and the
exported handler.  Two further revisions referenced by the claims are also
embedded: the revision in `src/unnamed/part_000` (receivedTime-only filter
with full client-side subject/recipient validation, suffix `P0`) and the
`encodeOData` variant of `src/unnamed/part_004` (suffix `P4`).

JavaScript strings are modelled as Lean `String`; an absent (`undefined`)
string field is modelled as `""`, which is sound here because every use in
the source goes through JS truthiness, which identifies the two.  String
primitives used by the source (`split(';')`, `trim()`, `toLowerCase()`,
`includes`, `startsWith`, `join`) are given structural list-based
definitions below so that all terms reduce in the kernel.

External Graph-API calls are modelled by an `Oracle` record giving the
outcome of each outbound call, and the handler returns, besides its HTTP
response, the trace of outbound calls (plus the error-log events the claims
talk about) as a list of `Event`s.
-/

namespace ForwardEmail

/-- The single-quote character U+0027, the character the OData encoder doubles. -/
def squote : Char := Char.ofNat 39

/-- The single-quote character as a one-character string (used when the source
interpolates a value between literal quotes in a filter template). -/
def squoteS : String := String.mk [squote]

/-- One step of `str.replace(/'/g, "''")`: a single quote becomes two, any
other character is kept. -/
def escQuoteChar (c : Char) : List Char :=
  if c = squote then [squote, squote] else [c]

/-- JS `str.replace(/'/g, "''")`: every single quote in the string is doubled. -/
def replaceQuotes (s : String) : String :=
  String.mk (s.data.flatMap escQuoteChar)

/-- Whitespace as trimmed by JS `String.prototype.trim` (ASCII part: space,
tab, LF, VT, FF, CR; the Unicode space classes do not occur in the claims). -/
def isJsSpaceChar (c : Char) : Bool :=
  c = Char.ofNat 32 || c = Char.ofNat 9 || c = Char.ofNat 10 ||
  c = Char.ofNat 11 || c = Char.ofNat 12 || c = Char.ofNat 13

/-- Drop leading and trailing whitespace from a character list. -/
def trimChars (l : List Char) : List Char :=
  ((l.dropWhile isJsSpaceChar).reverse.dropWhile isJsSpaceChar).reverse

/-- JS `s.trim()`. -/
def jsTrim (s : String) : String := String.mk (trimChars s.data)

/-- JS `s.toLowerCase()` (ASCII lowering; the claims only involve ASCII). -/
def jsToLower (s : String) : String := String.mk (s.data.map Char.toLower)

/-- JS `s.split(sep)` for a one-character separator: splits into the
(possibly empty) chunks between occurrences of `sep`. -/
def splitOnChar (sep : Char) : List Char → List (List Char)
  | [] => [[]]
  | c :: rest =>
    let r := splitOnChar sep rest
    if c = sep then [] :: r
    else
      match r with
      | [] => [[c]]
      | h :: t => (c :: h) :: t

/-- JS `parts.join(sep)`. -/
def joinSep (sep : String) : List String → String
  | [] => ""
  | [x] => x
  | x :: xs => x ++ sep ++ joinSep sep xs

/-- `hasLead s p`: the character list `p` is an initial segment of `s`
(JS `s.startsWith(p)`). -/
def hasLead : List Char → List Char → Bool
  | _, [] => true
  | [], _ :: _ => false
  | c :: cs, d :: ds => c == d && hasLead cs ds

/-! ## Data model -/

/-- One entry of a message's `toRecipients` collection; `address` is
`r.emailAddress.address`, with `""` when the field is missing. -/
structure Recipient where
  address : String
deriving DecidableEq

/-- A message record returned by the metadata query (the fields the query
selects: `id,receivedDateTime,subject,toRecipients`). -/
structure CandidateMessage where
  id : String
  receivedDateTime : String
  subject : String
  toRecipients : List Recipient
deriving DecidableEq

/-- The parameters of one `/me/messages` query as the source builds it:
`$filter`, `$orderby` (`""` when the revision sets none), `$top`, `$select`. -/
structure QueryCall where
  filter : String
  orderby : String
  top : Nat
  select : String
deriving DecidableEq

/-- An error thrown by a Graph call: its message, transport status code
(`0` when the error carries none) and service error code (`""` when none). -/
structure GraphError where
  message : String
  statusCode : Nat
  code : String
deriving DecidableEq

/-- The original message as fetched by the forwarding pipeline (the fields
the handler selects and reads). -/
structure FullMessage where
  subject : String
  bodyContentType : String
  bodyContent : String
  toRecipients : List Recipient
  ccRecipients : List Recipient
  importance : String
  hasAttachments : Bool
deriving DecidableEq

/-- An attachment of the original message; shape-specific payload fields are
`""` when absent. -/
structure Attachment where
  odataType : String
  name : String
  contentType : String
  contentBytes : String
  item : String
  providerType : String
  sourceUrl : String
deriving DecidableEq

/-- The `attachmentData` object the handler posts when re-creating one
attachment: the shape-specific fields are set only for the matching
`@odata.type`. -/
structure AttachmentData where
  odataType : String
  name : String
  contentType : String
  contentBytes : Option String
  item : Option String
  providerType : Option String
  sourceUrl : Option String
deriving DecidableEq

/-- The `newMessage` draft payload the handler posts. -/
structure NewMessage where
  subject : String
  bodyContentType : String
  bodyContent : String
  toRecipients : List Recipient
  ccRecipients : List Recipient
  importance : String
deriving DecidableEq

/-- One entry of the `translateExchangeIds` response value. -/
structure TranslateEntry where
  targetId : String
deriving DecidableEq

/-- Outcomes of the outbound Graph calls the handler can make, one field per
call site.  Query errors are carried as strings (`err.message`); the other
calls can fail with a `GraphError`. -/
structure Oracle where
  queryResult : QueryCall → Except String (List CandidateMessage)
  translateResult : Except String (List TranslateEntry)
  fetchResult : String → Except GraphError FullMessage
  attachListResult : Except GraphError (List Attachment)
  draftResult : Except GraphError String
  attachCreateResult : Nat → Except GraphError Unit
  sendResult : Except GraphError Unit
  moveResult : Except GraphError Unit

/-- The request body fields the handler destructures, plus the raw
authorization header. -/
structure Req where
  authHeader : String
  messageId : String
  subject : String
  recipients : String
  receivedTime : String
  useMetadataSearch : Bool
deriving DecidableEq

/-- The HTTP response the handler writes to `context.res` (`message` is the
success text of the 200 body; `messageIdUsed` is `""` when the body carries
none). -/
structure Response where
  status : Nat
  success : Bool
  error : String
  message : String
  messageIdUsed : String
deriving DecidableEq

/-- The observable trace of one handler run: outbound Graph calls, plus the
error-log events the verified claims mention (translation failure,
per-attachment creation failure, search failure). -/
inductive Event where
  | query (c : QueryCall)
  | translate (inputId : String)
  | fetchMessage (id : String)
  | fetchAttachments (id : String)
  | createDraft (payload : NewMessage)
  | createAttachment (draftId : String) (idx : Nat) (data : AttachmentData)
  | send (draftId : String)
  | move (id : String) (dest : String)
  | logTranslationFailed (id : String) (msg : String)
  | logAttachmentFailed (name : String) (msg : String)
  | logSearchFailed (msg : String)
deriving DecidableEq

/-- `Event.isQuery e`: `e` is a metadata-search query call. -/
def Event.isQuery : Event → Bool
  | Event.query _ => true
  | _ => false

/-- `Event.isTranslate e`: `e` is a legacy-ID translation call. -/
def Event.isTranslate : Event → Bool
  | Event.translate _ => true
  | _ => false

/-! ## `src/forwardEmail/index.js`: `searchMessageByMetadata` -/

/-- index.js line 8: `const encodeOData = (str) => str ? str.replace(/'/g, "''") : "";`. -/
def encodeOData (s : String) : String :=
  if s = "" then "" else replaceQuotes s

/-- index.js line 12: the subject filter term pushed when `subject` is truthy. -/
def subjectTerm (subject : String) : String :=
  "subject eq " ++ squoteS ++ encodeOData subject ++ squoteS

/-- index.js line 19: the receivedTime filter term pushed when `receivedTime`
is truthy. -/
def timeTerm (receivedTime : String) : String :=
  "receivedDateTime eq " ++ encodeOData receivedTime

/-- index.js line 28: the first-recipient filter term. -/
def recipientTerm (addr : String) : String :=
  "toRecipients/any(r: r/emailAddress/address eq " ++ squoteS ++ encodeOData addr ++ squoteS ++ ")"

/-- index.js line 22 (identical in part_000 line 41):
`recipients ? recipients.split(';').map(r => r.trim().toLowerCase()).filter(r => r) : []`. -/
def fullRecipientListOf (recipients : String) : List String :=
  if recipients = "" then []
  else
    (((splitOnChar (Char.ofNat 59) recipients.data).map
        (fun r => jsToLower (jsTrim (String.mk r)))).filter (fun r => r ≠ ""))

/-- index.js lines 10-29: the `initialFilterParts` array, pushed in source
order: subject term, receivedTime term, then the first-recipient term when
the normalized recipient list is non-empty. -/
def initialFilterParts (subject recipients receivedTime : String) : List String :=
  (if subject ≠ "" then [subjectTerm subject] else []) ++
  (if receivedTime ≠ "" then [timeTerm receivedTime] else []) ++
  (match fullRecipientListOf recipients with
   | [] => []
   | r :: _ => [recipientTerm r])

/-- index.js lines 49-54: the one query `searchMessageByMetadata` issues —
joined filter, `orderby('receivedDateTime desc')`, `top(5)`,
`select('id,receivedDateTime,subject,toRecipients')`. -/
def searchQueryCall (subject recipients receivedTime : String) : QueryCall :=
  { filter := joinSep " and " (initialFilterParts subject recipients receivedTime),
    orderby := "receivedDateTime desc",
    top := 5,
    select := "id,receivedDateTime,subject,toRecipients" }

/-- index.js lines 73-75: the lowercased recipient addresses of a candidate
(`r.emailAddress && r.emailAddress.address ? r.emailAddress.address.toLowerCase() : ''`). -/
def msgRecipientAddrs (m : CandidateMessage) : List String :=
  m.toRecipients.map (fun r => if r.address = "" then "" else jsToLower r.address)

/-- index.js lines 64-96: the per-candidate secondary check of the scan loop.
Only when more than one recipient is expected does the loop check the
candidate; it then requires a non-empty recipient list containing every
expected (already trimmed-lowercased) address. -/
def passesSecondaryCheck (frl : List String) (m : CandidateMessage) : Bool :=
  if frl.length > 1 then
    if m.toRecipients = [] then false
    else frl.all (fun e => (msgRecipientAddrs m).contains e)
  else true

/-- index.js lines 64-97: the `for (const message of response.value)` loop —
return the id of the first candidate passing the secondary check, else fall
through (`null`). -/
def scanCandidates (frl : List String) : List CandidateMessage → Option String
  | [] => none
  | m :: rest =>
    if passesSecondaryCheck frl m then some m.id else scanCandidates frl rest

/-- index.js lines 7-113: `searchMessageByMetadata`.  Returns the list of
queries issued together with the outcome: `Except.error` models the function
throwing, `Except.ok none` the `null` returns (no filter criteria, empty
page, or no candidate passing the secondary check), `Except.ok (some id)`
the found message id. -/
def searchMessageByMetadata (subject recipients receivedTime : String)
    (queryService : QueryCall → Except String (List CandidateMessage)) :
    List QueryCall × Except String (Option String) :=
  if initialFilterParts subject recipients receivedTime = [] then
    ([], Except.ok none)
  else
    let call := searchQueryCall subject recipients receivedTime
    match queryService call with
    | Except.error e => ([call], Except.error ("Error searching by metadata: " ++ e))
    | Except.ok msgs =>
      ([call], Except.ok (scanCandidates (fullRecipientListOf recipients) msgs))

/-! ## `src/forwardEmail/index.js`: handler helpers -/

/-- index.js lines 283-287: `validateMessageId` — non-empty and free of `/`. -/
def validateMessageId (id : String) : Bool :=
  if id = "" then false
  else if id.data.contains (Char.ofNat 47) then false
  else true

/-- index.js lines 289-305: `convertExchangeId`, as a function of the
`translateExchangeIds` call outcome.  A transport error, an empty `value`
array, or a missing `targetId` all surface as a thrown
`Translation failed: …` error. -/
def convertExchangeId (translateResult : Except String (List TranslateEntry)) :
    Except String String :=
  match translateResult with
  | Except.error e => Except.error ("Translation failed: " ++ e)
  | Except.ok entries =>
    match entries with
    | [] => Except.error "Translation failed: No translated ID returned or targetId is missing."
    | e :: _ =>
      if e.targetId = "" then
        Except.error "Translation failed: No translated ID returned or targetId is missing."
      else Except.ok e.targetId

/-- index.js lines 229-241: the `attachmentData` payload built for one
attachment, switching on its `@odata.type`. -/
def buildAttachmentData (a : Attachment) : AttachmentData :=
  let base : AttachmentData :=
    { odataType := a.odataType, name := a.name, contentType := a.contentType,
      contentBytes := none, item := none, providerType := none, sourceUrl := none }
  if a.odataType = "#microsoft.graph.fileAttachment" then
    { base with contentBytes := some a.contentBytes }
  else if a.odataType = "#microsoft.graph.itemAttachment" then
    { base with item := some a.item }
  else if a.odataType = "#microsoft.graph.referenceAttachment" then
    { base with providerType := some a.providerType, sourceUrl := some a.sourceUrl }
  else base

/-- index.js lines 215-221: the `newMessage` draft payload
(`importance: message.importance || "normal"`). -/
def buildNewMessage (m : FullMessage) : NewMessage :=
  { subject := m.subject,
    bodyContentType := m.bodyContentType,
    bodyContent := m.bodyContent,
    toRecipients := m.toRecipients,
    ccRecipients := m.ccRecipients,
    importance := if m.importance = "" then "normal" else m.importance }

/-- index.js lines 226-247: the attachment re-creation loop.  Every
attachment's creation call is attempted; a failing call is logged
(`logAttachmentFailed`) and the loop continues — the call outcome never
aborts the loop. -/
def attachLoop (o : Oracle) (draftId : String) : Nat → List Attachment → List Event
  | _, [] => []
  | i, a :: rest =>
    let ev := Event.createAttachment draftId i (buildAttachmentData a)
    match o.attachCreateResult i with
    | Except.ok _ => ev :: attachLoop o draftId (i + 1) rest
    | Except.error err =>
      ev :: Event.logAttachmentFailed a.name err.message :: attachLoop o draftId (i + 1) rest

/-- index.js lines 260-268: the response of the catch-branch around the
fetch-to-move pipeline: 404 passthrough for a 404 fetch error, otherwise 500,
with a body carrying the message id used. -/
def graphFailResponse (e : GraphError) (messageId : String) : Response :=
  { status := if e.statusCode = 404 then 404 else 500,
    success := false,
    error :=
      if e.statusCode ≠ 0 ∧ e.code ≠ "" then
        "Graph API Error: " ++ e.code ++ " - " ++ e.message
      else "Error accessing message: " ++ e.message,
    message := "",
    messageIdUsed := messageId }

/-- index.js lines 255-259: the 200 success response. -/
def successResponse : Response :=
  { status := 200, success := true, error := "",
    message := "Email forwarded successfully", messageIdUsed := "" }

/-- index.js lines 214-259: draft creation, attachment loop, send, move.
Draft/send/move failures hit the surrounding catch (`graphFailResponse`);
attachment-creation failures are absorbed inside `attachLoop`. -/
def forwardStage2 (o : Oracle) (mid : String) (message : FullMessage)
    (atts : List Attachment) : Response × List Event :=
  let draftEv := Event.createDraft (buildNewMessage message)
  match o.draftResult with
  | Except.error e => (graphFailResponse e mid, [draftEv])
  | Except.ok draftId =>
    let evs := draftEv :: attachLoop o draftId 0 atts
    match o.sendResult with
    | Except.error e => (graphFailResponse e mid, evs ++ [Event.send draftId])
    | Except.ok _ =>
      match o.moveResult with
      | Except.error e =>
        (graphFailResponse e mid, evs ++ [Event.send draftId, Event.move mid "deleteditems"])
      | Except.ok _ =>
        (successResponse, evs ++ [Event.send draftId, Event.move mid "deleteditems"])

/-- index.js lines 198-268: fetch the original message (and, when
`hasAttachments`, its attachment list), then run the rest of the pipeline. -/
def forwardStage (o : Oracle) (mid : String) : Response × List Event :=
  match o.fetchResult mid with
  | Except.error e => (graphFailResponse e mid, [Event.fetchMessage mid])
  | Except.ok message =>
    if message.hasAttachments then
      match o.attachListResult with
      | Except.error e =>
        (graphFailResponse e mid, [Event.fetchMessage mid, Event.fetchAttachments mid])
      | Except.ok atts =>
        let p := forwardStage2 o mid message atts
        (p.1, Event.fetchMessage mid :: Event.fetchAttachments mid :: p.2)
    else
      let p := forwardStage2 o mid message []
      (p.1, Event.fetchMessage mid :: p.2)

/-- index.js lines 175-196 followed by the pipeline: the part of the handler
after the metadata-search stage has produced (or passed through) `messageId`.
A still-empty id yields the 400 response; an id failing format validation
and containing `/` triggers one translation attempt whose failure is only
logged (the original id is kept). -/
def afterResolve (o : Oracle) (messageId : String) (evs : List Event) :
    Response × List Event :=
  if messageId = "" then
    ({ status := 400, success := false,
       error := "Message ID is required and could not be determined via metadata search.",
       message := "", messageIdUsed := "" }, evs)
  else
    let step :=
      if validateMessageId messageId then (messageId, ([] : List Event))
      else if messageId.data.contains (Char.ofNat 47) then
        match convertExchangeId o.translateResult with
        | Except.ok newId => (newId, [Event.translate messageId])
        | Except.error e =>
          (messageId, [Event.translate messageId, Event.logTranslationFailed messageId e])
      else (messageId, ([] : List Event))
    let p := forwardStage o step.1
    (p.1, evs ++ step.2 ++ p.2)

/-- index.js lines 156-163: the 404 body when the metadata search finds
nothing. -/
def noMatchError (req : Req) : String :=
  "No messages found with subject: \"" ++ req.subject ++ "\", recipients: \"" ++
  req.recipients ++ "\", and receivedTime: \"" ++ req.receivedTime ++ "\""

/-- index.js lines 147-173: the metadata-search stage of the handler: a
thrown search surfaces as the 500 response, `null` as the 404 response, and
a found id flows into the rest of the handler. -/
def searchStage (req : Req) (o : Oracle) : Response × List Event :=
  let sr := searchMessageByMetadata req.subject req.recipients req.receivedTime o.queryResult
  let evs := sr.1.map Event.query
  match sr.2 with
  | Except.error e =>
    ({ status := 500, success := false, error := "Error searching for message: " ++ e,
       message := "", messageIdUsed := "" }, evs ++ [Event.logSearchFailed e])
  | Except.ok none =>
    ({ status := 404, success := false, error := noMatchError req,
       message := "", messageIdUsed := "" }, evs)
  | Except.ok (some foundId) => afterResolve o foundId evs

/-- index.js lines 116-276: the exported handler.  The metadata search runs
only when the provided id is empty, `useMetadataSearch` is set, and at least
one of subject/recipients/receivedTime is non-empty. -/
def forwardEmailHandler (req : Req) (o : Oracle) : Response × List Event :=
  if hasLead req.authHeader.data ("Bearer ".data) = false then
    ({ status := 401, success := false, error := "Unauthorized: No token provided",
       message := "", messageIdUsed := "" }, [])
  else if req.messageId = "" ∧ req.useMetadataSearch = true ∧
          (req.subject ≠ "" ∨ req.recipients ≠ "" ∨ req.receivedTime ≠ "") then
    searchStage req o
  else
    afterResolve o req.messageId []

/-! ## `src/unnamed/part_000`: the receivedTime-primary revision -/

/-- part_000 lines 54-66: the per-candidate subject validation —
`message.subject ? message.subject.trim().toLowerCase() : ""` must equal
`subjectFromRequest.trim().toLowerCase()`; vacuously true when no subject
was requested. -/
def subjectMatchP0 (subjectReq : String) (m : CandidateMessage) : Bool :=
  if subjectReq = "" then true
  else
    (if m.subject = "" then "" else jsToLower (jsTrim m.subject)) =
      jsToLower (jsTrim subjectReq)

/-- part_000 lines 73-75: the candidate's recipient addresses, lowercased,
with missing addresses (`null`) filtered out. -/
def msgAddrsP0 (m : CandidateMessage) : List String :=
  (m.toRecipients.map (fun r => if r.address = "" then "" else jsToLower r.address)).filter
    (fun a => a ≠ "")

/-- part_000 lines 69-95: the per-candidate recipient validation — when any
recipients are expected, the candidate must have a non-empty recipient list
containing every expected (trimmed-lowercased) address. -/
def recipientsMatchP0 (frl : List String) (m : CandidateMessage) : Bool :=
  if frl = [] then true
  else if m.toRecipients = [] then false
  else frl.all (fun e => (msgAddrsP0 m).contains e)

/-- part_000 lines 43-102: the candidate scan loop — skip on subject
mismatch, skip on recipient mismatch, return the first survivor's id. -/
def scanCandidatesP0 (subjectReq : String) (frl : List String) :
    List CandidateMessage → Option String
  | [] => none
  | m :: rest =>
    if subjectMatchP0 subjectReq m then
      if recipientsMatchP0 frl m then some m.id
      else scanCandidatesP0 subjectReq frl rest
    else scanCandidatesP0 subjectReq frl rest

/-- part_000 lines 22-34: the one query of this revision — the filter is the
receivedTime equality term alone; `top(5)`; no `orderby`;
`select('id,receivedDateTime,subject,toRecipients')`. -/
def searchQueryCallP0 (receivedTime : String) : QueryCall :=
  { filter := "receivedDateTime eq " ++ encodeOData receivedTime,
    orderby := "",
    top := 5,
    select := "id,receivedDateTime,subject,toRecipients" }

/-- part_000 lines 7-120: `searchMessageByMetadata` of the part_000
revision: a missing/blank receivedTime throws; otherwise one
receivedTime-only query is issued and the candidates are validated
client-side against subject and the full recipient set. -/
def searchMessageByMetadataP0 (subject recipients receivedTime : String)
    (queryService : QueryCall → Except String (List CandidateMessage)) :
    List QueryCall × Except String (Option String) :=
  if jsTrim receivedTime = "" then
    ([], Except.error
      "receivedTimeFromRequest must be a valid ISO date string and is required for metadata search to uniquely identify the message.")
  else
    let call := searchQueryCallP0 receivedTime
    match queryService call with
    | Except.error e =>
      ([call], Except.error ("Error searching message by metadata: " ++ e))
    | Except.ok msgs =>
      ([call], Except.ok (scanCandidatesP0 subject (fullRecipientListOf recipients) msgs))

/-! ## `src/unnamed/part_004`: the trimming `encodeOData` variant -/

/-- part_004 (second document, line 185):
`const encodeOData = (str) => str ? str.replace(/'/g, "''").trim() : "";`. -/
def encodeODataP4 (s : String) : String :=
  if s = "" then "" else jsTrim (replaceQuotes s)

/-! ## Quote-escaping invariant -/

/-- A character list in which every single quote is part of an adjacent
doubled pair — i.e. no single quote stands unescaped. -/
inductive QuotesDoubled : List Char → Prop
  | nil : QuotesDoubled []
  | consOther {c : Char} {l : List Char} :
      c ≠ squote → QuotesDoubled l → QuotesDoubled (c :: l)
  | consPair {l : List Char} :
      QuotesDoubled l → QuotesDoubled (squote :: squote :: l)

/-! ## Concrete inputs used by witnesses and counterexamples -/

/-- A fetched message without attachments, for witness runs. -/
def msgPlain : FullMessage :=
  { subject := "Quarterly report", bodyContentType := "html", bodyContent := "body",
    toRecipients := [], ccRecipients := [], importance := "", hasAttachments := false }

/-- An oracle on which every outbound call succeeds. -/
def okOracle : Oracle :=
  { queryResult := fun _ => Except.ok [],
    translateResult := Except.ok [{ targetId := "tX" }],
    fetchResult := fun _ => Except.ok msgPlain,
    attachListResult := Except.ok [],
    draftResult := Except.ok "d1",
    attachCreateResult := fun _ => Except.ok (),
    sendResult := Except.ok (),
    moveResult := Except.ok () }

/-- A request with a valid (slash-free) provided id. -/
def reqDirect : Req :=
  { authHeader := "Bearer tok", messageId := "AAMkADEx", subject := "Quarterly report",
    recipients := "a@x.com", receivedTime := "2024-06-05T12:30:00Z", useMetadataSearch := true }

/-- A request whose provided id contains a slash, with search attributes
present and metadata search enabled. -/
def reqSlash : Req :=
  { authHeader := "Bearer tok", messageId := "ab/cd", subject := "Quarterly report",
    recipients := "", receivedTime := "", useMetadataSearch := true }

/-- The oracle of `reqSlash`'s run: the translation call fails, everything
else succeeds. -/
def oracleSlash : Oracle :=
  { okOracle with translateResult := Except.error "mailbox not found" }

/-- A search-only request (no provided id, subject given). -/
def reqSearch : Req :=
  { authHeader := "Bearer tok", messageId := "", subject := "Invoice #42",
    recipients := "", receivedTime := "", useMetadataSearch := true }

/-- An oracle whose query call throws. -/
def oracleQueryFail : Oracle :=
  { okOracle with queryResult := fun _ => Except.error "socket hang up" }

/-- A request with no id and no search attributes, metadata search enabled. -/
def reqEmpty : Req :=
  { authHeader := "Bearer tok", messageId := "", subject := "", recipients := "",
    receivedTime := "", useMetadataSearch := true }

/-- A candidate whose subject differs entirely from the requested one. -/
def candWrongSubject : CandidateMessage :=
  { id := "m-5", receivedDateTime := "2024-06-05T12:30:00Z",
    subject := "Totally different", toRecipients := [] }

/-- A candidate whose subject differs from `"invoice #42"` only in case and
leading/trailing whitespace. -/
def candTolerated : CandidateMessage :=
  { id := "w5", receivedDateTime := "2024-06-05T12:30:00Z",
    subject := "  INVOICE #42  ", toRecipients := [] }

/-- A candidate that lacks the single expected recipient `a@x.com`. -/
def candMissingRecipient : CandidateMessage :=
  { id := "m-6", receivedDateTime := "", subject := "",
    toRecipients := [{ address := "b@y.com" }] }

/-- A candidate holding both expected recipients, upper-cased and in the
opposite order. -/
def candBothRecipients : CandidateMessage :=
  { id := "w6", receivedDateTime := "", subject := "Invoice #42",
    toRecipients := [{ address := "B@X.com" }, { address := "A@X.COM" }] }

/-- A candidate missing `b@x.com` (fails the two-recipient check). -/
def candOnlyFirst : CandidateMessage :=
  { id := "c7a", receivedDateTime := "", subject := "Invoice #42",
    toRecipients := [{ address := "a@x.com" }] }

/-- A trailing candidate after the first match (never examined). -/
def candAfterMatch : CandidateMessage :=
  { id := "c7c", receivedDateTime := "", subject := "Invoice #42",
    toRecipients := [{ address := "a@x.com" }, { address := "b@x.com" }] }

/-- A fetched message with attachments, for the attachment-failure run. -/
def msgWithAtts : FullMessage :=
  { subject := "Quarterly report", bodyContentType := "html", bodyContent := "body",
    toRecipients := [], ccRecipients := [], importance := "high", hasAttachments := true }

/-- First attachment of the witness run (its creation call will fail). -/
def attFirst : Attachment :=
  { odataType := "#microsoft.graph.fileAttachment", name := "a.pdf",
    contentType := "application/pdf", contentBytes := "QUJD", item := "",
    providerType := "", sourceUrl := "" }

/-- Second attachment of the witness run (its creation call succeeds). -/
def attSecond : Attachment :=
  { odataType := "#microsoft.graph.referenceAttachment", name := "doc",
    contentType := "", contentBytes := "", item := "",
    providerType := "oneDriveBusiness", sourceUrl := "https://contoso/doc" }

/-- The error the failing attachment-creation call throws. -/
def errAttach : GraphError :=
  { message := "payload too large", statusCode := 413, code := "ErrorAttachmentSizeExceeded" }

/-- Oracle of the attachment-failure run: the first attachment-creation call
fails, everything else succeeds. -/
def oracleAttachFail : Oracle :=
  { okOracle with
    fetchResult := fun _ => Except.ok msgWithAtts,
    attachListResult := Except.ok [attFirst, attSecond],
    attachCreateResult := fun n => if n = 0 then Except.error errAttach else Except.ok () }

/-! ## Helper lemmas -/

theorem search_eq_of_error (s r t : String)
    (svc : QueryCall → Except String (List CandidateMessage))
    (hparts : initialFilterParts s r t ≠ []) (e : String)
    (hq : svc (searchQueryCall s r t) = Except.error e) :
    searchMessageByMetadata s r t svc =
      ([searchQueryCall s r t], Except.error ("Error searching by metadata: " ++ e)) := by
  simp only [searchMessageByMetadata, if_neg hparts, hq]

theorem search_eq_of_ok (s r t : String)
    (svc : QueryCall → Except String (List CandidateMessage))
    (hparts : initialFilterParts s r t ≠ []) (msgs : List CandidateMessage)
    (hq : svc (searchQueryCall s r t) = Except.ok msgs) :
    searchMessageByMetadata s r t svc =
      ([searchQueryCall s r t],
        Except.ok (scanCandidates (fullRecipientListOf r) msgs)) := by
  simp only [searchMessageByMetadata, if_neg hparts, hq]

theorem scanCandidates_some_iff (frl : List String) :
    ∀ (msgs : List CandidateMessage) (i : String),
      scanCandidates frl msgs = some i ↔
        ∃ pre m post, msgs = pre ++ m :: post ∧
          passesSecondaryCheck frl m = true ∧ m.id = i ∧
          ∀ x ∈ pre, passesSecondaryCheck frl x = false := by
  intro msgs
  induction msgs with
  | nil =>
    intro i
    constructor
    · intro h; simp [scanCandidates] at h
    · rintro ⟨pre, m, post, h, -⟩
      exact absurd h (by simp)
  | cons hd tl ih =>
    intro i
    constructor
    · intro h
      by_cases hp : passesSecondaryCheck frl hd = true
      · refine ⟨[], hd, tl, rfl, hp, ?_, by simp⟩
        have := h
        simp only [scanCandidates, hp, if_true] at this
        exact Option.some.inj this
      · have h2 : scanCandidates frl tl = some i := by
          simpa [scanCandidates, hp] using h
        obtain ⟨pre, m, post, heq, hm, hid, hpre⟩ := (ih i).1 h2
        refine ⟨hd :: pre, m, post, by rw [heq]; rfl, hm, hid, ?_⟩
        intro x hx
        rcases List.mem_cons.1 hx with hx1 | hx2
        · subst hx1; simpa using hp
        · exact hpre x hx2
    · rintro ⟨pre, m, post, heq, hm, hid, hpre⟩
      cases pre with
      | nil =>
        simp only [List.nil_append] at heq
        injection heq with h1 h2
        subst h1; subst h2
        simp [scanCandidates, hm, hid]
      | cons p ps =>
        simp only [List.cons_append] at heq
        injection heq with h1 h2
        subst h1; subst h2
        have hfail : passesSecondaryCheck frl hd = false := hpre hd (by simp)
        have : scanCandidates frl (ps ++ m :: post) = some i :=
          (ih i).2 ⟨ps, m, post, rfl, hm, hid, fun x hx => hpre x (by simp [hx])⟩
        simpa [scanCandidates, hfail] using this

theorem scanCandidates_some_mem (frl : List String) (msgs : List CandidateMessage)
    (i : String) (h : scanCandidates frl msgs = some i) :
    ∃ m ∈ msgs, m.id = i ∧ passesSecondaryCheck frl m = true := by
  obtain ⟨pre, m, post, heq, hm, hid, -⟩ := (scanCandidates_some_iff frl msgs i).1 h
  exact ⟨m, by simp [heq], hid, hm⟩

theorem scanCandidatesP0_some (subjectReq : String) (frl : List String) :
    ∀ (msgs : List CandidateMessage) (i : String),
      scanCandidatesP0 subjectReq frl msgs = some i →
      ∃ m ∈ msgs, m.id = i ∧ subjectMatchP0 subjectReq m = true ∧
        recipientsMatchP0 frl m = true := by
  intro msgs
  induction msgs with
  | nil => intro i h; simp [scanCandidatesP0] at h
  | cons hd tl ih =>
    intro i h
    by_cases hs : subjectMatchP0 subjectReq hd = true
    · by_cases hr : recipientsMatchP0 frl hd = true
      · have hi : hd.id = i := by
          have := h
          simp only [scanCandidatesP0, hs, hr, if_true] at this
          exact Option.some.inj this
        exact ⟨hd, by simp, hi, hs, hr⟩
      · have h2 : scanCandidatesP0 subjectReq frl tl = some i := by
          simpa [scanCandidatesP0, hs, hr] using h
        obtain ⟨m, hmem, hid, hsm, hrm⟩ := ih i h2
        exact ⟨m, by simp [hmem], hid, hsm, hrm⟩
    · have h2 : scanCandidatesP0 subjectReq frl tl = some i := by
        simpa [scanCandidatesP0, hs] using h
      obtain ⟨m, hmem, hid, hsm, hrm⟩ := ih i h2
      exact ⟨m, by simp [hmem], hid, hsm, hrm⟩

theorem subjectMatchP0_iff_norm (sReq : String) (m : CandidateMessage) (h : sReq ≠ "") :
    subjectMatchP0 sReq m = true ↔
      jsToLower (jsTrim m.subject) = jsToLower (jsTrim sReq) := by
  have hempty : jsToLower (jsTrim "") = "" := rfl
  by_cases hm : m.subject = ""
  · simp only [subjectMatchP0, if_neg h, hm, if_pos rfl, hempty]
    constructor
    · intro he; exact (by simpa using he : ("" : String) = _)
    · intro he; simpa using he.symm ▸ rfl
  · simp [subjectMatchP0, if_neg h, hm]

theorem recipientsMatchP0_all (frl : List String) (m : CandidateMessage)
    (hne : frl ≠ []) (h : recipientsMatchP0 frl m = true) :
    ∀ e ∈ frl, (msgAddrsP0 m).contains e = true := by
  unfold recipientsMatchP0 at h
  rw [if_neg hne] at h
  by_cases ht : m.toRecipients = []
  · rw [if_pos ht] at h; exact absurd h (by simp)
  · rw [if_neg ht] at h
    intro e he
    exact List.all_eq_true.1 h e he

theorem passesSecondaryCheck_all (frl : List String) (m : CandidateMessage)
    (hlen : frl.length > 1) (h : passesSecondaryCheck frl m = true) :
    ∀ e ∈ frl, (msgRecipientAddrs m).contains e = true := by
  unfold passesSecondaryCheck at h
  rw [if_pos hlen] at h
  by_cases ht : m.toRecipients = []
  · rw [if_pos ht] at h; exact absurd h (by simp)
  · rw [if_neg ht] at h
    intro e he
    exact List.all_eq_true.1 h e he

theorem attachLoop_mem_create (o : Oracle) (did : String) :
    ∀ (atts : List Attachment) (start j : Nat) (hj : j < atts.length),
      Event.createAttachment did (start + j) (buildAttachmentData (atts.get ⟨j, hj⟩)) ∈
        attachLoop o did start atts := by
  intro atts
  induction atts with
  | nil => intro start j hj; exact absurd hj (by simp)
  | cons a rest ih =>
    intro start j hj
    cases j with
    | zero =>
      simp only [Nat.add_zero, List.get]
      unfold attachLoop
      cases o.attachCreateResult start <;> simp
    | succ j =>
      have hj2 : j < rest.length := Nat.lt_of_succ_lt_succ hj
      have hmem := ih (start + 1) j hj2
      have harith : start + (j + 1) = start + 1 + j := by omega
      rw [harith]
      show Event.createAttachment did (start + 1 + j)
        (buildAttachmentData ((a :: rest).get ⟨j + 1, hj⟩)) ∈ attachLoop o did start (a :: rest)
      have hget : ((a :: rest).get ⟨j + 1, hj⟩) = rest.get ⟨j, hj2⟩ := rfl
      rw [hget]
      unfold attachLoop
      cases o.attachCreateResult start with
      | ok u => exact List.mem_cons_of_mem _ hmem
      | error e => exact List.mem_cons_of_mem _ (List.mem_cons_of_mem _ hmem)

theorem attachLoop_mem_log (o : Oracle) (did : String) :
    ∀ (atts : List Attachment) (start j : Nat) (hj : j < atts.length) (err : GraphError),
      o.attachCreateResult (start + j) = Except.error err →
      Event.logAttachmentFailed (atts.get ⟨j, hj⟩).name err.message ∈
        attachLoop o did start atts := by
  intro atts
  induction atts with
  | nil => intro start j hj; exact absurd hj (by simp)
  | cons a rest ih =>
    intro start j hj err hfail
    cases j with
    | zero =>
      rw [Nat.add_zero] at hfail
      simp only [List.get]
      unfold attachLoop
      rw [hfail]
      simp
    | succ j =>
      have hj2 : j < rest.length := Nat.lt_of_succ_lt_succ hj
      have harith : start + (j + 1) = start + 1 + j := by omega
      rw [harith] at hfail
      have hmem := ih (start + 1) j hj2 err hfail
      have hget : ((a :: rest).get ⟨j + 1, hj⟩) = rest.get ⟨j, hj2⟩ := rfl
      rw [hget]
      unfold attachLoop
      cases o.attachCreateResult start with
      | ok u => exact List.mem_cons_of_mem _ hmem
      | error e => exact List.mem_cons_of_mem _ (List.mem_cons_of_mem _ hmem)

theorem attachLoop_no_search (o : Oracle) (did : String) :
    ∀ (atts : List Attachment) (start : Nat) (ev : Event),
      ev ∈ attachLoop o did start atts →
      ev.isQuery = false ∧ ev.isTranslate = false := by
  intro atts
  induction atts with
  | nil => intro start ev h; simp [attachLoop] at h
  | cons a rest ih =>
    intro start ev h
    unfold attachLoop at h
    cases hr : o.attachCreateResult start with
    | ok u =>
      rw [hr] at h
      rcases List.mem_cons.1 h with h1 | h2
      · subst h1; exact ⟨rfl, rfl⟩
      · exact ih (start + 1) ev h2
    | error e =>
      rw [hr] at h
      rcases List.mem_cons.1 h with h1 | h2
      · subst h1; exact ⟨rfl, rfl⟩
      · rcases List.mem_cons.1 h2 with h3 | h4
        · subst h3; exact ⟨rfl, rfl⟩
        · exact ih (start + 1) ev h4

theorem forwardStage2_no_search (o : Oracle) (mid : String) (message : FullMessage)
    (atts : List Attachment) :
    ∀ ev ∈ (forwardStage2 o mid message atts).2,
      ev.isQuery = false ∧ ev.isTranslate = false := by
  intro ev h
  unfold forwardStage2 at h
  cases hd : o.draftResult with
  | error e => rw [hd] at h; simp at h; subst h; exact ⟨rfl, rfl⟩
  | ok did =>
    rw [hd] at h
    simp only at h
    cases hs : o.sendResult with
    | error e =>
      rw [hs] at h
      rcases List.mem_append.1 h with h1 | h2
      · rcases List.mem_cons.1 h1 with h3 | h4
        · subst h3; exact ⟨rfl, rfl⟩
        · exact attachLoop_no_search o did atts 0 ev h4
      · simp at h2; subst h2; exact ⟨rfl, rfl⟩
    | ok u =>
      rw [hs] at h
      cases hm : o.moveResult with
      | error e =>
        rw [hm] at h
        rcases List.mem_append.1 h with h1 | h2
        · rcases List.mem_cons.1 h1 with h3 | h4
          · subst h3; exact ⟨rfl, rfl⟩
          · exact attachLoop_no_search o did atts 0 ev h4
        · rcases List.mem_cons.1 h2 with h3 | h4
          · subst h3; exact ⟨rfl, rfl⟩
          · simp at h4; subst h4; exact ⟨rfl, rfl⟩
      | ok u2 =>
        rw [hm] at h
        rcases List.mem_append.1 h with h1 | h2
        · rcases List.mem_cons.1 h1 with h3 | h4
          · subst h3; exact ⟨rfl, rfl⟩
          · exact attachLoop_no_search o did atts 0 ev h4
        · rcases List.mem_cons.1 h2 with h3 | h4
          · subst h3; exact ⟨rfl, rfl⟩
          · simp at h4; subst h4; exact ⟨rfl, rfl⟩

theorem forwardStage_no_search (o : Oracle) (mid : String) :
    ∀ ev ∈ (forwardStage o mid).2,
      ev.isQuery = false ∧ ev.isTranslate = false := by
  intro ev h
  cases hf : o.fetchResult mid with
  | error e =>
    simp only [forwardStage, hf] at h
    simp at h; subst h; exact ⟨rfl, rfl⟩
  | ok message =>
    by_cases ha : message.hasAttachments = true
    · cases hl : o.attachListResult with
      | error e =>
        simp only [forwardStage, hf, ha, hl, if_true] at h
        rcases List.mem_cons.1 h with h1 | h2
        · subst h1; exact ⟨rfl, rfl⟩
        · simp at h2; subst h2; exact ⟨rfl, rfl⟩
      | ok atts =>
        simp only [forwardStage, hf, ha, hl, if_true] at h
        rcases List.mem_cons.1 h with h1 | h2
        · subst h1; exact ⟨rfl, rfl⟩
        · rcases List.mem_cons.1 h2 with h3 | h4
          · subst h3; exact ⟨rfl, rfl⟩
          · exact forwardStage2_no_search o mid message atts ev h4
    · have ha2 : message.hasAttachments = false := by
        cases hb : message.hasAttachments
        · rfl
        · exact absurd hb ha
      simp only [forwardStage, hf, ha2, Bool.false_eq_true, if_false] at h
      rcases List.mem_cons.1 h with h1 | h2
      · subst h1; exact ⟨rfl, rfl⟩
      · exact forwardStage2_no_search o mid message [] ev h2

theorem forwardStage_head (o : Oracle) (mid : String) :
    (forwardStage o mid).2.head? = some (Event.fetchMessage mid) := by
  cases hf : o.fetchResult mid with
  | error e => simp only [forwardStage, hf]; rfl
  | ok message =>
    by_cases ha : message.hasAttachments = true
    · cases hl : o.attachListResult with
      | error e => simp only [forwardStage, hf, ha, hl, if_true]; rfl
      | ok atts => simp only [forwardStage, hf, ha, hl, if_true]; rfl
    · have ha2 : message.hasAttachments = false := by
        cases hb : message.hasAttachments
        · rfl
        · exact absurd hb ha
      simp only [forwardStage, hf, ha2, Bool.false_eq_true, if_false]; rfl

theorem handler_direct (req : Req) (o : Oracle)
    (hauth : hasLead req.authHeader.data ("Bearer ".data) = true)
    (hid : req.messageId ≠ "")
    (hsl : req.messageId.data.contains (Char.ofNat 47) = false) :
    forwardEmailHandler req o = forwardStage o req.messageId := by
  have hvalid : validateMessageId req.messageId = true := by
    unfold validateMessageId
    rw [if_neg hid, if_neg (by intro hc; rw [hsl] at hc; exact Bool.false_ne_true hc)]
  unfold forwardEmailHandler
  rw [if_neg (by simp [hauth]), if_neg (by rintro ⟨h1, -, -⟩; exact hid h1)]
  unfold afterResolve
  rw [if_neg hid, if_pos hvalid]
  simp

theorem handler_translate_fail (req : Req) (o : Oracle)
    (hauth : hasLead req.authHeader.data ("Bearer ".data) = true)
    (hid : req.messageId ≠ "")
    (hsl : req.messageId.data.contains (Char.ofNat 47) = true)
    (e : String) (htr : convertExchangeId o.translateResult = Except.error e) :
    forwardEmailHandler req o =
      ((forwardStage o req.messageId).1,
        Event.translate req.messageId :: Event.logTranslationFailed req.messageId e ::
          (forwardStage o req.messageId).2) := by
  have hvalid : validateMessageId req.messageId = false := by
    unfold validateMessageId
    rw [if_neg hid, if_pos hsl]
  unfold forwardEmailHandler
  rw [if_neg (by simp [hauth]), if_neg (by rintro ⟨h1, -, -⟩; exact hid h1)]
  unfold afterResolve
  rw [if_neg hid, if_neg (by simp [hvalid]), if_pos hsl, htr]
  simp

theorem handler_search (req : Req) (o : Oracle)
    (hauth : hasLead req.authHeader.data ("Bearer ".data) = true)
    (hmid : req.messageId = "") (hums : req.useMetadataSearch = true)
    (hattr : req.subject ≠ "" ∨ req.recipients ≠ "" ∨ req.receivedTime ≠ "") :
    forwardEmailHandler req o = searchStage req o := by
  unfold forwardEmailHandler
  rw [if_neg (by simp [hauth]), if_pos ⟨hmid, hums, hattr⟩]

theorem quotesDoubled_flatMap (m : List Char) :
    QuotesDoubled (m.flatMap escQuoteChar) := by
  induction m with
  | nil => exact QuotesDoubled.nil
  | cons c m ih =>
    by_cases hc : c = squote
    · subst hc
      simpa [List.flatMap_cons, escQuoteChar] using QuotesDoubled.consPair ih
    · simpa [List.flatMap_cons, escQuoteChar, hc] using QuotesDoubled.consOther hc ih

theorem count_flatMap_esc (m : List Char) :
    (m.flatMap escQuoteChar).count squote = 2 * m.count squote := by
  induction m with
  | nil => simp
  | cons c m ih =>
    by_cases hc : c = squote
    · subst hc
      simp [List.flatMap_cons, escQuoteChar, List.count_cons, ih, Nat.mul_add]
    · simp [List.flatMap_cons, escQuoteChar, hc, List.count_cons, ih]

theorem quotesDoubled_dropWhile (p : Char → Bool) (hp : p squote = false)
    {l : List Char} (h : QuotesDoubled l) : QuotesDoubled (l.dropWhile p) := by
  induction h with
  | nil => exact QuotesDoubled.nil
  | consOther hc hl ih =>
    rename_i c l2
    by_cases hpc : p c = true
    · simpa [List.dropWhile_cons, hpc] using ih
    · have hpc2 : p c = false := by
        cases hb : p c
        · rfl
        · exact absurd hb hpc
      simpa [List.dropWhile_cons, hpc2] using QuotesDoubled.consOther hc hl
  | consPair hl =>
    rename_i l2
    simpa [List.dropWhile_cons, hp] using QuotesDoubled.consPair hl

theorem escQuoteChar_reverse (c : Char) :
    (escQuoteChar c).reverse = escQuoteChar c := by
  unfold escQuoteChar
  by_cases hc : c = squote
  · rw [if_pos hc]; rfl
  · rw [if_neg hc]; rfl

theorem reverse_flatMap_esc (m : List Char) :
    (m.flatMap escQuoteChar).reverse = m.reverse.flatMap escQuoteChar := by
  induction m with
  | nil => rfl
  | cons c m ih =>
    simp [List.flatMap_cons, List.reverse_append, ih, List.flatMap_append,
      escQuoteChar_reverse]

theorem quotesDoubled_iff_flatMap (l : List Char) :
    QuotesDoubled l ↔ ∃ m : List Char, l = m.flatMap escQuoteChar := by
  constructor
  · intro h
    induction h with
    | nil => exact ⟨[], rfl⟩
    | @consOther c l2 hc hl ih =>
      obtain ⟨m, hm⟩ := ih
      refine ⟨c :: m, ?_⟩
      rw [List.flatMap_cons, hm]
      simp [escQuoteChar, hc]
    | @consPair l2 hl ih =>
      obtain ⟨m, hm⟩ := ih
      refine ⟨squote :: m, ?_⟩
      rw [List.flatMap_cons, hm]
      simp [escQuoteChar]
  · rintro ⟨m, rfl⟩
    exact quotesDoubled_flatMap m

theorem quotesDoubled_reverse {l : List Char} (h : QuotesDoubled l) :
    QuotesDoubled l.reverse := by
  obtain ⟨m, rfl⟩ := (quotesDoubled_iff_flatMap l).1 h
  rw [reverse_flatMap_esc]
  exact quotesDoubled_flatMap m.reverse

theorem quotesDoubled_trimChars {l : List Char} (h : QuotesDoubled l) :
    QuotesDoubled (trimChars l) := by
  have hp : isJsSpaceChar squote = false := rfl
  unfold trimChars
  exact quotesDoubled_reverse
    (quotesDoubled_dropWhile _ hp (quotesDoubled_reverse (quotesDoubled_dropWhile _ hp h)))

theorem count_dropWhile_eq (p : Char → Bool) (a : Char) (hp : p a = false) :
    ∀ l : List Char, (l.dropWhile p).count a = l.count a := by
  intro l
  induction l with
  | nil => rfl
  | cons c l ih =>
    by_cases hpc : p c = true
    · have hca : c ≠ a := by
        intro hca; rw [hca, hp] at hpc; exact Bool.false_ne_true hpc
      have hac : a ≠ c := fun hac => hca hac.symm
      simp [List.dropWhile_cons, hpc, ih, List.count_cons, hac]
    · have hpc2 : p c = false := by
        cases hb : p c
        · rfl
        · exact absurd hb hpc
      simp [List.dropWhile_cons, hpc2]

theorem count_trimChars_eq (a : Char) (ha : isJsSpaceChar a = false) (l : List Char) :
    (trimChars l).count a = l.count a := by
  unfold trimChars
  rw [List.count_reverse, count_dropWhile_eq _ _ ha, List.count_reverse,
    count_dropWhile_eq _ _ ha]

/-! ## Claim theorems -/

/-- C1: for every authorized request whose `providedId` is a non-empty string
not containing `/`, the handler behaves exactly as the forwarding pipeline run
on that unchanged id — its first outbound call is the by-id fetch of the
provided id — and its trace contains no translation call and no
metadata-search query, whatever the values of `subject`, `recipients`,
`receivedTime` and `useMetadataSearch`. -/
theorem c1_direct_id_short_circuit (req : Req) (o : Oracle)
    (hauth : hasLead req.authHeader.data ("Bearer ".data) = true)
    (hid : req.messageId ≠ "")
    (hsl : req.messageId.data.contains (Char.ofNat 47) = false) :
    forwardEmailHandler req o = forwardStage o req.messageId ∧
    (forwardEmailHandler req o).2.head? = some (Event.fetchMessage req.messageId) ∧
    ∀ ev ∈ (forwardEmailHandler req o).2,
      ev.isQuery = false ∧ ev.isTranslate = false := by
  have heq := handler_direct req o hauth hid hsl
  refine ⟨heq, ?_, ?_⟩
  · rw [heq]; exact forwardStage_head o req.messageId
  · rw [heq]; exact forwardStage_no_search o req.messageId

/-- C1 witness: the concrete request `reqDirect` (id `"AAMkADEx"`, all search
attributes set, metadata search enabled) run against the all-success oracle
resolves to the provided id with no translation call and no query. -/
theorem c1_witness :
    forwardEmailHandler reqDirect okOracle = forwardStage okOracle "AAMkADEx" ∧
    (forwardEmailHandler reqDirect okOracle).2.head? =
      some (Event.fetchMessage "AAMkADEx") ∧
    ∀ ev ∈ (forwardEmailHandler reqDirect okOracle).2,
      ev.isQuery = false ∧ ev.isTranslate = false :=
  c1_direct_id_short_circuit reqDirect okOracle rfl (by decide) rfl

/-- C2 counterexample: the request `reqSlash` has a providedId containing `/`,
`useMetadataSearch = true` and a non-empty subject, and its translation call
fails — yet the handler issues no metadata-search query at all (the claimed
fall-through to strategy 3 does not happen) and the run ends with status 200
(neither NotFound nor Invalid), because the handler proceeds to the fetch
stage with the original id. -/
theorem c2_counterexample :
    reqSlash.messageId.data.contains (Char.ofNat 47) = true ∧
    reqSlash.useMetadataSearch = true ∧
    reqSlash.subject ≠ "" ∧
    convertExchangeId oracleSlash.translateResult =
      Except.error "Translation failed: mailbox not found" ∧
    (forwardEmailHandler reqSlash oracleSlash).1.status = 200 ∧
    ∀ ev ∈ (forwardEmailHandler reqSlash oracleSlash).2, ev.isQuery = false := by
  exact ⟨rfl, rfl, by decide, rfl, rfl, by decide⟩

/-- C2 (amended): for every authorized request whose providedId contains `/`
and whose legacy-ID translation call fails, the failure is logged and not
raised: the handler keeps the original untranslated id and proceeds to the
fetch stage with it, and no metadata-search query is ever issued (metadata
search runs only when the provided id is empty, before any translation
attempt); the outcome is whatever the fetch stage produces. -/
theorem c2_translation_failure_logged_no_fallback (req : Req) (o : Oracle)
    (hauth : hasLead req.authHeader.data ("Bearer ".data) = true)
    (hid : req.messageId ≠ "")
    (hsl : req.messageId.data.contains (Char.ofNat 47) = true)
    (e : String) (htr : convertExchangeId o.translateResult = Except.error e) :
    forwardEmailHandler req o =
      ((forwardStage o req.messageId).1,
        Event.translate req.messageId :: Event.logTranslationFailed req.messageId e ::
          (forwardStage o req.messageId).2) ∧
    ∀ ev ∈ (forwardEmailHandler req o).2, ev.isQuery = false := by
  have heq := handler_translate_fail req o hauth hid hsl e htr
  refine ⟨heq, ?_⟩
  intro ev hev
  rw [heq] at hev
  rcases List.mem_cons.1 hev with h1 | h2
  · subst h1; rfl
  · rcases List.mem_cons.1 h2 with h3 | h4
    · subst h3; rfl
    · exact (forwardStage_no_search o req.messageId ev h4).1

/-- C2 witness: the amended statement instantiated on the concrete run
`reqSlash` / `oracleSlash`: the translation failure is logged, the fetch
proceeds with the original id `"ab/cd"`, no query is issued. -/
theorem c2_witness :
    forwardEmailHandler reqSlash oracleSlash =
      ((forwardStage oracleSlash "ab/cd").1,
        Event.translate "ab/cd" ::
          Event.logTranslationFailed "ab/cd" "Translation failed: mailbox not found" ::
          (forwardStage oracleSlash "ab/cd").2) ∧
    ∀ ev ∈ (forwardEmailHandler reqSlash oracleSlash).2, ev.isQuery = false :=
  c2_translation_failure_logged_no_fallback reqSlash oracleSlash rfl (by decide)
    rfl "Translation failed: mailbox not found" rfl

/-- C4: for every authorized request with no providedId, metadata search
enabled, and subject, recipients and receivedTime all empty, the handler
returns the 400 client-error outcome and makes no outbound call at all — in
particular no query to the message-query service. -/
theorem c4_insufficient_criteria (req : Req) (o : Oracle)
    (hauth : hasLead req.authHeader.data ("Bearer ".data) = true)
    (hmid : req.messageId = "") (_hums : req.useMetadataSearch = true)
    (hs : req.subject = "") (hr : req.recipients = "") (ht : req.receivedTime = "") :
    (forwardEmailHandler req o).1.status = 400 ∧
    (forwardEmailHandler req o).1.success = false ∧
    (forwardEmailHandler req o).2 = [] := by
  have hgate : ¬(req.messageId = "" ∧ req.useMetadataSearch = true ∧
      (req.subject ≠ "" ∨ req.recipients ≠ "" ∨ req.receivedTime ≠ "")) := by
    rintro ⟨-, -, h3⟩
    rcases h3 with h | h | h
    · exact h hs
    · exact h hr
    · exact h ht
  have : forwardEmailHandler req o = afterResolve o req.messageId [] := by
    unfold forwardEmailHandler
    rw [if_neg (by simp [hauth]), if_neg hgate]
  rw [this, hmid]
  unfold afterResolve
  rw [if_pos rfl]
  exact ⟨rfl, rfl, rfl⟩

/-- C4 witness: the concrete request `reqEmpty` (no id, no attributes,
search enabled) against the all-success oracle yields 400 with an empty
trace. -/
theorem c4_witness :
    (forwardEmailHandler reqEmpty okOracle).1.status = 400 ∧
    (forwardEmailHandler reqEmpty okOracle).1.success = false ∧
    (forwardEmailHandler reqEmpty okOracle).2 = [] :=
  c4_insufficient_criteria reqEmpty okOracle rfl rfl rfl rfl rfl rfl

/-- C3: for every metadata search the handler runs (empty providedId, search
enabled, some attribute present, non-empty filter), a throwing query call
yields the 500-class search-failure outcome carrying the search error and
never the 404 outcome; a query that succeeds with a candidate page in which
no candidate passes the checks (in particular an empty page) yields the 404
NotFound outcome and never the 500 one — the two outcomes are disjoint and
exhaustively distinguish infrastructure failure from no-match. -/
theorem c3_search_failure_vs_no_match (req : Req) (o : Oracle)
    (hauth : hasLead req.authHeader.data ("Bearer ".data) = true)
    (hmid : req.messageId = "") (hums : req.useMetadataSearch = true)
    (hattr : req.subject ≠ "" ∨ req.recipients ≠ "" ∨ req.receivedTime ≠ "")
    (hparts : initialFilterParts req.subject req.recipients req.receivedTime ≠ []) :
    (∀ e, o.queryResult (searchQueryCall req.subject req.recipients req.receivedTime) =
        Except.error e →
      (forwardEmailHandler req o).1.status = 500 ∧
      (forwardEmailHandler req o).1.status ≠ 404 ∧
      (forwardEmailHandler req o).1.error =
        "Error searching for message: Error searching by metadata: " ++ e) ∧
    (∀ msgs, o.queryResult (searchQueryCall req.subject req.recipients req.receivedTime) =
        Except.ok msgs →
      scanCandidates (fullRecipientListOf req.recipients) msgs = none →
      (forwardEmailHandler req o).1.status = 404 ∧
      (forwardEmailHandler req o).1.status ≠ 500) := by
  have hh := handler_search req o hauth hmid hums hattr
  constructor
  · intro e hq
    have hs := search_eq_of_error req.subject req.recipients req.receivedTime
      o.queryResult hparts e hq
    rw [hh]
    unfold searchStage
    rw [hs]
    dsimp only
    exact ⟨rfl, by decide, rfl⟩
  · intro msgs hq hscan
    have hs := search_eq_of_ok req.subject req.recipients req.receivedTime
      o.queryResult hparts msgs hq
    rw [hh]
    unfold searchStage
    rw [hs]
    dsimp only
    rw [hscan]
    dsimp only
    exact ⟨rfl, by decide⟩

/-- C3 witness: on the concrete search request `reqSearch`, a throwing query
(`oracleQueryFail`) produces status 500 (not 404) carrying the search error,
and a successful query with an empty page (`okOracle`) produces status 404
(not 500). -/
theorem c3_witness :
    ((forwardEmailHandler reqSearch oracleQueryFail).1.status = 500 ∧
     (forwardEmailHandler reqSearch oracleQueryFail).1.status ≠ 404 ∧
     (forwardEmailHandler reqSearch oracleQueryFail).1.error =
       "Error searching for message: Error searching by metadata: " ++ "socket hang up") ∧
    ((forwardEmailHandler reqSearch okOracle).1.status = 404 ∧
     (forwardEmailHandler reqSearch okOracle).1.status ≠ 500) :=
  ⟨(c3_search_failure_vs_no_match reqSearch oracleQueryFail rfl rfl rfl
      (Or.inl (by decide)) (by decide)).1 "socket hang up" rfl,
   (c3_search_failure_vs_no_match reqSearch okOracle rfl rfl rfl
      (Or.inl (by decide)) (by decide)).2 [] rfl rfl⟩

/-- C5 counterexample: in the index.js revision the metadata search performs
no client-side subject check — with subject `"Quarterly report"` supplied and
the query returning the single candidate `candWrongSubject` (subject
`"Totally different"`, which does not match even after trimming and
lowercasing), the candidate is returned, not skipped. -/
theorem c5_counterexample :
    (searchMessageByMetadata "Quarterly report" "" ""
        (fun _ => Except.ok [candWrongSubject])).2 = Except.ok (some "m-5") ∧
    jsToLower (jsTrim candWrongSubject.subject) ≠
      jsToLower (jsTrim "Quarterly report") := by
  exact ⟨rfl, by decide⟩

/-- C5 (amended): the trimmed-lowercased subject equality check with
skip-on-mismatch is performed by the part_000 revision of the metadata
search: when a subject is supplied, any candidate its scan returns has a
subject equal, after trimming and lowercasing, to the supplied subject (so a
candidate differing only in leading/trailing whitespace or letter case still
matches, and one whose normalized subject differs is never returned).  The
index.js revision performs no client-side subject check (subject matching is
left entirely to the server-side filter), as the counterexample shows. -/
theorem c5_subject_check_p0 (subjectReq recipients : String)
    (msgs : List CandidateMessage) (i : String) (hs : subjectReq ≠ "")
    (h : scanCandidatesP0 subjectReq (fullRecipientListOf recipients) msgs = some i) :
    ∃ m ∈ msgs, m.id = i ∧
      jsToLower (jsTrim m.subject) = jsToLower (jsTrim subjectReq) := by
  obtain ⟨m, hmem, hid, hsm, -⟩ :=
    scanCandidatesP0_some subjectReq (fullRecipientListOf recipients) msgs i h
  exact ⟨m, hmem, hid, (subjectMatchP0_iff_norm subjectReq m hs).1 hsm⟩

/-- C5 witness: the part_000 scan run with requested subject
`"invoice #42"` accepts the candidate whose subject is
`"  INVOICE #42  "` — differing only in case and leading/trailing
whitespace — and the theorem yields the normalized-subject equality. -/
theorem c5_witness :
    ∃ m ∈ [candTolerated], m.id = "w5" ∧
      jsToLower (jsTrim m.subject) = jsToLower (jsTrim "invoice #42") :=
  c5_subject_check_p0 "invoice #42" "" [candTolerated] "w5" (by decide) rfl

/-- C6 counterexample: in the index.js revision, with exactly one expected
recipient (`"a@x.com"`), a candidate that does not contain that address at
all (`candMissingRecipient`, recipients `["b@y.com"]`) is still accepted and
returned — the client-side all-recipients check is skipped when only one
recipient is expected, contradicting the claim that a candidate missing even
one expected address is rejected. -/
theorem c6_counterexample :
    fullRecipientListOf "a@x.com" = ["a@x.com"] ∧
    (searchMessageByMetadata "" "a@x.com" ""
        (fun _ => Except.ok [candMissingRecipient])).2 = Except.ok (some "m-6") ∧
    (msgRecipientAddrs candMissingRecipient).contains "a@x.com" = false := by
  exact ⟨by decide, rfl, by decide⟩

/-- C6 (amended): the ALL-expected-recipients check (case-insensitive via
lowercasing, order-independent via set membership) holds as claimed in the
part_000 revision for every non-empty expected set, including singletons:
every candidate returned contains every expected address.  In the index.js
revision the client-side check applies only when more than one recipient is
expected; with exactly one expected recipient no client-side check is
performed (the counterexample), that recipient being enforced only by the
server-side filter. -/
theorem c6_all_recipients_check (subjectReq recipients : String)
    (msgs : List CandidateMessage) (i : String) :
    (fullRecipientListOf recipients ≠ [] →
      scanCandidatesP0 subjectReq (fullRecipientListOf recipients) msgs = some i →
      ∃ m ∈ msgs, m.id = i ∧
        ∀ e ∈ fullRecipientListOf recipients, (msgAddrsP0 m).contains e = true) ∧
    ((fullRecipientListOf recipients).length > 1 →
      scanCandidates (fullRecipientListOf recipients) msgs = some i →
      ∃ m ∈ msgs, m.id = i ∧
        ∀ e ∈ fullRecipientListOf recipients,
          (msgRecipientAddrs m).contains e = true) := by
  constructor
  · intro hne h
    obtain ⟨m, hmem, hid, -, hrm⟩ :=
      scanCandidatesP0_some subjectReq (fullRecipientListOf recipients) msgs i h
    exact ⟨m, hmem, hid, recipientsMatchP0_all (fullRecipientListOf recipients) m hne hrm⟩
  · intro hlen h
    obtain ⟨m, hmem, hid, hp⟩ :=
      scanCandidates_some_mem (fullRecipientListOf recipients) msgs i h
    exact ⟨m, hmem, hid, passesSecondaryCheck_all (fullRecipientListOf recipients) m hlen hp⟩

/-- C6 witness: with expected recipients `"a@x.com;b@x.com"` the part_000
scan accepts the candidate whose recipients are `["B@X.com","A@X.COM"]`
(upper-cased, opposite order), and the theorem yields that every expected
address is contained in the candidate's lowercased address set. -/
theorem c6_witness :
    ∃ m ∈ [candBothRecipients], m.id = "w6" ∧
      ∀ e ∈ fullRecipientListOf "a@x.com;b@x.com",
        (msgAddrsP0 m).contains e = true :=
  (c6_all_recipients_check "" "a@x.com;b@x.com" [candBothRecipients] "w6").1
    (by decide) rfl

/-- C7: for every metadata search with a non-empty filter, exactly one query
is issued, with `top = 5` and exactly the fields
`id,receivedDateTime,subject,toRecipients` selected; and when the query
succeeds, the search returns id `i` exactly when the page splits as
`pre ++ m :: post` with every candidate of `pre` failing the check and `m`
the first candidate passing it, `i = m.id` — first-match wins, so no other
candidate can be returned. -/
theorem c7_single_query_first_match (subject recipients receivedTime : String)
    (svc : QueryCall → Except String (List CandidateMessage))
    (hparts : initialFilterParts subject recipients receivedTime ≠ []) :
    (searchMessageByMetadata subject recipients receivedTime svc).1 =
      [searchQueryCall subject recipients receivedTime] ∧
    (searchQueryCall subject recipients receivedTime).top = 5 ∧
    (searchQueryCall subject recipients receivedTime).select =
      "id,receivedDateTime,subject,toRecipients" ∧
    ∀ msgs, svc (searchQueryCall subject recipients receivedTime) = Except.ok msgs →
      ∀ i, ((searchMessageByMetadata subject recipients receivedTime svc).2 =
          Except.ok (some i) ↔
        ∃ pre m post, msgs = pre ++ m :: post ∧
          passesSecondaryCheck (fullRecipientListOf recipients) m = true ∧ m.id = i ∧
          ∀ x ∈ pre, passesSecondaryCheck (fullRecipientListOf recipients) x = false) := by
  refine ⟨?_, rfl, rfl, ?_⟩
  · cases hq : svc (searchQueryCall subject recipients receivedTime) with
    | error e => rw [search_eq_of_error subject recipients receivedTime svc hparts e hq]
    | ok msgs => rw [search_eq_of_ok subject recipients receivedTime svc hparts msgs hq]
  · intro msgs hq i
    rw [search_eq_of_ok subject recipients receivedTime svc hparts msgs hq]
    constructor
    · intro h
      have h2 : scanCandidates (fullRecipientListOf recipients) msgs = some i :=
        Except.ok.inj h
      exact (scanCandidates_some_iff (fullRecipientListOf recipients) msgs i).1 h2
    · intro hdec
      have h2 : scanCandidates (fullRecipientListOf recipients) msgs = some i :=
        (scanCandidates_some_iff (fullRecipientListOf recipients) msgs i).2 hdec
      rw [h2]

/-- C7 witness: with subject `"Invoice #42"` and recipients
`"a@x.com;b@x.com"`, a page of three candidates in which only the second
passes the recipient check makes the search issue exactly one query (top 5,
the four listed fields) and return the second candidate's id `"w6"`. -/
theorem c7_witness :
    (searchMessageByMetadata "Invoice #42" "a@x.com;b@x.com" ""
        (fun _ => Except.ok [candOnlyFirst, candBothRecipients, candAfterMatch])).1 =
      [searchQueryCall "Invoice #42" "a@x.com;b@x.com" ""] ∧
    (searchQueryCall "Invoice #42" "a@x.com;b@x.com" "").top = 5 ∧
    (searchQueryCall "Invoice #42" "a@x.com;b@x.com" "").select =
      "id,receivedDateTime,subject,toRecipients" ∧
    (searchMessageByMetadata "Invoice #42" "a@x.com;b@x.com" ""
        (fun _ => Except.ok [candOnlyFirst, candBothRecipients, candAfterMatch])).2 =
      Except.ok (some "w6") := by
  have h := c7_single_query_first_match "Invoice #42" "a@x.com;b@x.com" ""
    (fun _ => Except.ok [candOnlyFirst, candBothRecipients, candAfterMatch]) (by decide)
  refine ⟨h.1, h.2.1, h.2.2.1, ?_⟩
  exact (h.2.2.2 [candOnlyFirst, candBothRecipients, candAfterMatch] rfl "w6").2
    ⟨[candOnlyFirst], candBothRecipients, [candAfterMatch], rfl, by decide, rfl, by decide⟩

/-- C8 counterexample: with receivedTime supplied
(`"2024-06-05T12:30:00Z"`) and recipients `"a@x.com"`, the index.js filter
is the receivedTime term AND the first-recipient term — the recipient term
is present in the server-side filter, contradicting the claim that when
receivedTime is supplied the filter contains no recipient term. -/
theorem c8_counterexample :
    initialFilterParts "" "a@x.com" "2024-06-05T12:30:00Z" =
      [timeTerm "2024-06-05T12:30:00Z", recipientTerm "a@x.com"] ∧
    (searchQueryCall "" "a@x.com" "2024-06-05T12:30:00Z").filter =
      timeTerm "2024-06-05T12:30:00Z" ++ " and " ++ recipientTerm "a@x.com" := by
  exact ⟨by decide, by decide⟩

/-- C8 (amended): in the index.js revision, a supplied receivedTime
contributes its exact equality term to the filter but the first-recipient
term is still included whenever the normalized recipient list is non-empty;
when receivedTime is absent, the filter is formed from the subject term and
the first-recipient term.  The claimed receivedTime-only filter with
recipient validation wholly deferred to the client is the part_000 revision,
whose single query carries exactly the receivedTime equality term. -/
theorem c8_filter_terms (s r t : String) :
    (t ≠ "" → timeTerm t ∈ initialFilterParts s r t ∧
      ∀ a rest, fullRecipientListOf r = a :: rest →
        recipientTerm a ∈ initialFilterParts s r t) ∧
    (t = "" → initialFilterParts s r t =
      (if s ≠ "" then [subjectTerm s] else []) ++
      (match fullRecipientListOf r with
       | [] => []
       | a :: _ => [recipientTerm a])) ∧
    (jsTrim t ≠ "" →
      ∀ svc : QueryCall → Except String (List CandidateMessage),
        (searchMessageByMetadataP0 s r t svc).1 = [searchQueryCallP0 t] ∧
        (searchQueryCallP0 t).filter = "receivedDateTime eq " ++ encodeOData t) := by
  refine ⟨?_, ?_, ?_⟩
  · intro ht
    constructor
    · unfold initialFilterParts
      rw [if_pos ht]
      simp
    · intro a rest hr
      unfold initialFilterParts
      rw [hr]
      simp
  · intro ht
    subst ht
    simp [initialFilterParts]
  · intro ht svc
    refine ⟨?_, rfl⟩
    cases hq : svc (searchQueryCallP0 t) with
    | error e => simp only [searchMessageByMetadataP0, if_neg ht, hq]
    | ok msgs => simp only [searchMessageByMetadataP0, if_neg ht, hq]

/-- C8 witness: concrete instances of the three amended facts — the
receivedTime term and the recipient term both sit in the index.js filter
when both inputs are supplied; without receivedTime the filter is subject
plus first recipient; and the part_000 search issues a single query whose
filter is the receivedTime equality term alone. -/
theorem c8_witness :
    (timeTerm "2024-06-05T12:30:00Z" ∈
        initialFilterParts "Invoice #42" "a@x.com" "2024-06-05T12:30:00Z" ∧
      ∀ a rest, fullRecipientListOf "a@x.com" = a :: rest →
        recipientTerm a ∈
          initialFilterParts "Invoice #42" "a@x.com" "2024-06-05T12:30:00Z") ∧
    initialFilterParts "Invoice #42" "a@x.com" "" =
      [subjectTerm "Invoice #42", recipientTerm "a@x.com"] ∧
    ((searchMessageByMetadataP0 "Invoice #42" "a@x.com" "2024-06-05T12:30:00Z"
        (fun _ => Except.ok [])).1 = [searchQueryCallP0 "2024-06-05T12:30:00Z"] ∧
      (searchQueryCallP0 "2024-06-05T12:30:00Z").filter =
        "receivedDateTime eq " ++ encodeOData "2024-06-05T12:30:00Z") := by
  have h := c8_filter_terms "Invoice #42" "a@x.com" "2024-06-05T12:30:00Z"
  have h0 := c8_filter_terms "Invoice #42" "a@x.com" ""
  exact ⟨h.1 (by decide), h0.2.1 rfl,
    h.2.2 (by decide) (fun _ => Except.ok [])⟩

/-- C9: for every forwarding run (authorized request with a valid provided
id, successful fetch of a message with attachments, successful attachment
listing and draft creation) in which some attachment's creation call fails,
the failure is logged and the attachment skipped without aborting: every
attachment — including all remaining ones — still gets a creation call, the
send and the move still execute, and when send and move succeed the overall
response is the 200 success. -/
theorem c9_attachment_failure_recovered (req : Req) (o : Oracle)
    (hauth : hasLead req.authHeader.data ("Bearer ".data) = true)
    (hid : req.messageId ≠ "")
    (hsl : req.messageId.data.contains (Char.ofNat 47) = false)
    (message : FullMessage) (hfetch : o.fetchResult req.messageId = Except.ok message)
    (hatt : message.hasAttachments = true)
    (atts : List Attachment) (hlist : o.attachListResult = Except.ok atts)
    (did : String) (hdraft : o.draftResult = Except.ok did)
    (i : Nat) (hi : i < atts.length) (err : GraphError)
    (hfail : o.attachCreateResult i = Except.error err)
    (hsend : o.sendResult = Except.ok ()) (hmove : o.moveResult = Except.ok ()) :
    (forwardEmailHandler req o).1 = successResponse ∧
    (∀ j (hj : j < atts.length),
      Event.createAttachment did j (buildAttachmentData (atts.get ⟨j, hj⟩)) ∈
        (forwardEmailHandler req o).2) ∧
    Event.logAttachmentFailed (atts.get ⟨i, hi⟩).name err.message ∈
      (forwardEmailHandler req o).2 ∧
    Event.send did ∈ (forwardEmailHandler req o).2 ∧
    Event.move req.messageId "deleteditems" ∈ (forwardEmailHandler req o).2 := by
  have heq := handler_direct req o hauth hid hsl
  have hstage : forwardStage o req.messageId =
      ((forwardStage2 o req.messageId message atts).1,
        Event.fetchMessage req.messageId :: Event.fetchAttachments req.messageId ::
          (forwardStage2 o req.messageId message atts).2) := by
    simp only [forwardStage, hfetch, hatt, hlist, if_true]
  have hstage2 : forwardStage2 o req.messageId message atts =
      (successResponse,
        Event.createDraft (buildNewMessage message) :: attachLoop o did 0 atts ++
          [Event.send did, Event.move req.messageId "deleteditems"]) := by
    simp only [forwardStage2, hdraft, hsend, hmove]
  rw [heq, hstage, hstage2]
  refine ⟨rfl, ?_, ?_, ?_, ?_⟩
  · intro j hj
    have := attachLoop_mem_create o did atts 0 j hj
    rw [Nat.zero_add] at this
    exact List.mem_cons_of_mem _ (List.mem_cons_of_mem _
      (List.mem_cons_of_mem _ (List.mem_append_left _ this)))
  · have := attachLoop_mem_log o did atts 0 i hi err (by rw [Nat.zero_add]; exact hfail)
    exact List.mem_cons_of_mem _ (List.mem_cons_of_mem _
      (List.mem_cons_of_mem _ (List.mem_append_left _ this)))
  · exact List.mem_cons_of_mem _ (List.mem_cons_of_mem _
      (List.mem_cons_of_mem _ (List.mem_append_right _ (by simp))))
  · exact List.mem_cons_of_mem _ (List.mem_cons_of_mem _
      (List.mem_cons_of_mem _ (List.mem_append_right _ (by simp))))

/-- C9 witness: the concrete run `reqDirect` / `oracleAttachFail` — two
attachments, the first creation call failing — still creates the second
attachment, logs the failure, sends, moves, and returns the 200 success. -/
theorem c9_witness :
    (forwardEmailHandler reqDirect oracleAttachFail).1 = successResponse ∧
    Event.createAttachment "d1" 0 (buildAttachmentData attFirst) ∈
      (forwardEmailHandler reqDirect oracleAttachFail).2 ∧
    Event.createAttachment "d1" 1 (buildAttachmentData attSecond) ∈
      (forwardEmailHandler reqDirect oracleAttachFail).2 ∧
    Event.logAttachmentFailed "a.pdf" "payload too large" ∈
      (forwardEmailHandler reqDirect oracleAttachFail).2 ∧
    Event.send "d1" ∈ (forwardEmailHandler reqDirect oracleAttachFail).2 ∧
    Event.move "AAMkADEx" "deleteditems" ∈
      (forwardEmailHandler reqDirect oracleAttachFail).2 := by
  have h := c9_attachment_failure_recovered reqDirect oracleAttachFail rfl (by decide) rfl
    msgWithAtts rfl rfl [attFirst, attSecond] rfl "d1" rfl 0 (by decide) errAttach rfl
    rfl rfl
  exact ⟨h.1, h.2.1 0 (by decide), h.2.1 1 (by decide), h.2.2.1, h.2.2.2.1, h.2.2.2.2⟩

/-- C10: the OData encoding helper doubles every single quote: for every
input string, the output of the index.js `encodeOData` (used verbatim in
every filter term) contains its quotes only in adjacent doubled pairs —
no single quote of the value survives unescaped — and its quote count is
exactly twice the input's; the empty/absent value encodes to the empty
string.  The same holds for the part_004 variant, which additionally trims
the encoded value. -/
theorem c10_encode_escapes_quotes (s : String) :
    QuotesDoubled (encodeOData s).data ∧
    (encodeOData s).data.count squote = 2 * s.data.count squote ∧
    encodeOData "" = "" ∧
    QuotesDoubled (encodeODataP4 s).data ∧
    (encodeODataP4 s).data.count squote = 2 * s.data.count squote ∧
    encodeODataP4 "" = "" := by
  by_cases hs : s = ""
  · subst hs
    exact ⟨QuotesDoubled.nil, rfl, rfl, QuotesDoubled.nil, rfl, rfl⟩
  · refine ⟨?_, ?_, rfl, ?_, ?_, rfl⟩
    · unfold encodeOData
      rw [if_neg hs]
      exact quotesDoubled_flatMap s.data
    · unfold encodeOData
      rw [if_neg hs]
      exact count_flatMap_esc s.data
    · unfold encodeODataP4
      rw [if_neg hs]
      exact quotesDoubled_trimChars (quotesDoubled_flatMap s.data)
    · unfold encodeODataP4
      rw [if_neg hs]
      show (trimChars (s.data.flatMap escQuoteChar)).count squote = 2 * s.data.count squote
      rw [count_trimChars_eq squote rfl, count_flatMap_esc s.data]

end ForwardEmail
